import Mathlib

/-!
Verification of the document-embedding core of the `inflame` repository
(`inflame/data/util/embed.py`) and its hyperparameter presets
(`inflame/configs.py`).

The embedding is shallow: numpy tensors become nested lists of rationals,
generators become lists, the external gensim tokenizer and the GloVe
keyed-vector model become explicit parameters (`tokenize`, `WordVecs`),
and the exception-raising tokenizer used for error-propagation facts is
modelled with `Except`.
-/

namespace Inflame

/-- One embedding vector (a numpy 1-D array of floats, modelled over ℚ). -/
abbrev Vec := List ℚ

/-- One document slice of the tensor: `FIXED_DOCSIZE` word slots. -/
abbrev Row := List Vec

/-- The 3-D embedding tensor: documents × word slots × vector components. -/
abbrev Tensor := List Row

/-- A heterogeneous chain of unary functions, modelling the variadic tail
`f1, ..., fn` of the Python `pipe(*args)` call. -/
inductive FnChain : Type u → Type u → Type (u + 1)
  | nil : FnChain α α
  | cons : (α → β) → FnChain β γ → FnChain α γ

/-- `pipe`, modelling `reduce(lambda f, g: g(f), args)` from `embed.py`:
the first argument is the seed value and each later argument is applied,
left to right, to the running result. -/
def pipe (x : α) : FnChain α β → β
  | .nil => x
  | .cons f rest => pipe (f x) rest

/-- Right-nested composition of a function chain: `fn ∘ ... ∘ f2 ∘ f1`. -/
def FnChain.compose : FnChain α β → (α → β)
  | .nil => id
  | .cons f rest => rest.compose ∘ f

/-- The external Vector Lookup collaborator (gensim `KeyedVectors` for
"glove-wiki-gigaword-50"): a vocabulary-membership test, a vector
dimensionality, and the per-token vector (`wv[word]`). -/
structure WordVecs where
  vocab : String → Bool
  vector_size : Nat
  getVec : String → Vec

/-- The error kind raised by the external Tokenizer when it cannot process
a document. -/
structure TokenizationError where
  msg : String
deriving DecidableEq

/-- State of the `NLP` class after `__init__`: the stored document
collection `__DOCS` and the loaded Vector Lookup `__WORD_VECS`. -/
structure NLP where
  DOCS : List String
  WORD_VECS : WordVecs

/-- `self.__FIXED_DOCSIZE`, fixed to 200 by `__init__` for every instance. -/
def NLP.FIXED_DOCSIZE (_ : NLP) : Nat := 200

/-- The fixed stopword set hard-coded in `_rm_stopwords`. -/
def stopwords : List String := ["a", "and", "for", "in", "of", "the", "to"]

/-- `NLP._gen_tokens`: tokenize a text (lowercasing is the tokenizer's job)
and keep only tokens in the embedding space's vocabulary. -/
def NLP._gen_tokens (nlp : NLP) (tokenize : String → List String) (text : String) : List String :=
  (tokenize text).filter (fun token => nlp.WORD_VECS.vocab token)

/-- `NLP._rm_stopwords`: filter out stopwords. -/
def NLP._rm_stopwords (_ : NLP) (words : List String) : List String :=
  words.filter (fun word => !(stopwords.contains word))

/-- `NLP._trunc_doc`: keep only the first `FIXED_DOCSIZE` words. -/
def NLP._trunc_doc (nlp : NLP) (words : List String) : List String :=
  words.take nlp.FIXED_DOCSIZE

/-- `NLP._initialize`: a 3-D tensor of zeros with dimensions
(number of docs, `FIXED_DOCSIZE`, embedding dimension). -/
def NLP._initialize (nlp : NLP) : Tensor :=
  List.replicate nlp.DOCS.length
    (List.replicate nlp.FIXED_DOCSIZE (List.replicate nlp.WORD_VECS.vector_size 0))

/-- The numpy index assignment `embedding[i, j] = v`. -/
def setEntry (t : Tensor) (i j : Nat) (v : Vec) : Tensor :=
  t.set i ((t.getD i []).set j v)

/-- The per-document pipeline of `embed`:
`pipe(doc, self._gen_tokens, self._rm_stopwords, self._trunc_doc)`. -/
def NLP.survivors (nlp : NLP) (tokenize : String → List String) (doc : String) : List String :=
  pipe doc (.cons (nlp._gen_tokens tokenize) (.cons nlp._rm_stopwords (.cons nlp._trunc_doc .nil)))

/-- `NLP.embed`: prefill the tensor with zeros, then for each document `i`
and each surviving word at position `j` write that word's vector at
`[i, j]`. -/
def NLP.embed (nlp : NLP) (tokenize : String → List String) : Tensor :=
  nlp.DOCS.enum.foldl
    (fun embedding idoc =>
      (nlp.survivors tokenize idoc.2).enum.foldl
        (fun emb jw => setEntry emb idoc.1 jw.1 (nlp.WORD_VECS.getVec jw.2))
        embedding)
    nlp._initialize

/-- One iteration of the document loop of `embed` when the Tokenizer is
fallible: tokenize the document (possibly raising `TokenizationError`),
run the rest of the pipeline, and write the surviving words' vectors. -/
def NLP.embedStep (nlp : NLP) (tokenizeE : String → Except TokenizationError (List String))
    (embedding : Tensor) (idoc : Nat × String) : Except TokenizationError Tensor := do
  let toks ← tokenizeE idoc.2
  let words := pipe toks
    (.cons (fun ts => ts.filter (fun token => nlp.WORD_VECS.vocab token))
      (.cons nlp._rm_stopwords (.cons nlp._trunc_doc .nil)))
  pure (words.enum.foldl
    (fun emb jw => setEntry emb idoc.1 jw.1 (nlp.WORD_VECS.getVec jw.2))
    embedding)

/-- `NLP.embed` with a fallible Tokenizer: a Python exception raised while
tokenizing a document propagates out of the loop, so the whole pass is an
`Except` computation. -/
def NLP.embedE (nlp : NLP) (tokenizeE : String → Except TokenizationError (List String)) :
    Except TokenizationError Tensor :=
  nlp.DOCS.enum.foldlM (nlp.embedStep tokenizeE) nlp._initialize

/-- The combined per-token filter of the pipeline: in vocabulary and not a
stopword. -/
def keepToken (wv : WordVecs) (t : String) : Bool :=
  !(stopwords.contains t) && wv.vocab t

/-- The filtered token sequence of a document: vocabulary filter then
stopword filter, order preserved. -/
def NLP.filteredTokens (nlp : NLP) (tokenize : String → List String) (doc : String) :
    List String :=
  (tokenize doc).filter (keepToken nlp.WORD_VECS)

/-- The all-zero vector of a given dimensionality. -/
def zeroVec (k : Nat) : Vec := List.replicate k 0

/-- Functional description of one document's tensor slice: the surviving
words' vectors followed by zero padding up to `FIXED_DOCSIZE`. -/
def NLP.rowSpec (nlp : NLP) (tokenize : String → List String) (doc : String) : Row :=
  (nlp.survivors tokenize doc).map nlp.WORD_VECS.getVec
    ++ List.replicate (nlp.FIXED_DOCSIZE - (nlp.survivors tokenize doc).length)
        (zeroVec nlp.WORD_VECS.vector_size)

/-- Row of the tensor at a document index. -/
def rowAt (t : Tensor) (i : Nat) : Row := t.getD i []

/-- Entry of the tensor at a document index and a word slot. -/
def entryAt (t : Tensor) (i j : Nat) : Vec := (t.getD i []).getD j []

/-- Result of writing a word list's vectors into the front of a row. -/
def writeRowFull (g : String → Vec) (ws : List String) (r : Row) : Row :=
  ws.map g ++ r.drop ws.length

/-- A hyperparameter value as found in `configs.py`: a Python int or a
Python float (floats modelled exactly over ℚ, used only as opaque data). -/
inductive HyperValue
  | int : Int → HyperValue
  | float : ℚ → HyperValue

/-- Whether a hyperparameter value is an int. -/
def HyperValue.isInt : HyperValue → Bool
  | .int _ => true
  | .float _ => false

/-- Whether a hyperparameter value is a float. -/
def HyperValue.isFloat : HyperValue → Bool
  | .int _ => false
  | .float _ => true

/-- The `bbcnews` preset of `configs.py`, as an ordered key/value mapping. -/
def bbcnews : List (String × HyperValue) :=
  [("input_length", .int 600),
   ("channels", .int 50),
   ("kernel_size", .int 9),
   ("stride", .int 1),
   ("learn_rate", .float 0.0005),
   ("n_epochs", .int 40),
   ("hidden_layer_nodes", .int 200),
   ("output_layer_nodes", .int 5)]

/-- The `newsgrp` preset of `configs.py`, as an ordered key/value mapping. -/
def newsgrp : List (String × HyperValue) :=
  [("input_length", .int 600),
   ("channels", .int 50),
   ("kernel_size", .int 5),
   ("stride", .int 1),
   ("learn_rate", .float 0.001),
   ("n_epochs", .int 40),
   ("hidden_layer_nodes", .int 100),
   ("output_layer_nodes", .int 20)]

/-- The recognized hyperparameter keys, in the order the presets list them. -/
def hyperKeys : List String :=
  ["input_length", "channels", "kernel_size", "stride", "learn_rate", "n_epochs",
   "hidden_layer_nodes", "output_layer_nodes"]

/-- A small concrete Vector Lookup used to exercise the theorems: a
five-word vocabulary and 2-dimensional vectors. -/
def toyWV : WordVecs where
  vocab := fun w => ["cat", "sat", "dog", "ran", "fast"].contains w
  vector_size := 2
  getVec := fun w => [(w.length : ℚ), 0]

/-- A small concrete tokenizer given by a lookup table on the documents
used below. -/
def toyTok : String → List String
  | "the cat sat the cat" => ["the", "cat", "sat", "the", "cat"]
  | "zzz qqq" => ["zzz", "qqq"]
  | "the cat sat" => ["the", "cat", "sat"]
  | _ => []

/-- A concrete embedder instance: two stored documents over `toyWV`. -/
def toyNLP : NLP where
  DOCS := ["the cat sat the cat", "zzz qqq"]
  WORD_VECS := toyWV

/-- A concrete embedder instance with an empty document collection. -/
def toyEmptyNLP : NLP where
  DOCS := []
  WORD_VECS := toyWV

/-- A concrete fallible tokenizer that fails on one specific document. -/
def toyTokE : String → Except TokenizationError (List String)
  | "bad doc" => .error { msg := "cannot tokenize" }
  | s => .ok (toyTok s)

/-- A concrete embedder instance whose second stored document cannot be
tokenized by `toyTokE`. -/
def toyNLPE : NLP where
  DOCS := ["the cat sat", "bad doc"]
  WORD_VECS := toyWV

end Inflame

namespace Inflame

theorem survivors_eq (nlp : NLP) (tokenize : String → List String) (doc : String) :
    nlp.survivors tokenize doc = (nlp.filteredTokens tokenize doc).take nlp.FIXED_DOCSIZE := by
  simp only [NLP.survivors, pipe, NLP._gen_tokens, NLP._rm_stopwords, NLP._trunc_doc,
    NLP.filteredTokens, keepToken, List.filter_filter]
  rfl

theorem survivors_length_le (nlp : NLP) (tokenize : String → List String) (doc : String) :
    (nlp.survivors tokenize doc).length ≤ nlp.FIXED_DOCSIZE := by
  rw [survivors_eq]
  exact List.length_take_le _ _

theorem take_set_succ (r : List β) (n : Nat) (v : β) (h : n < r.length) :
    (r.set n v).take (n + 1) = r.take n ++ [v] := by
  induction r generalizing n with
  | nil => simp at h
  | cons a as ih =>
    cases n with
    | zero => simp
    | succ m =>
      simp only [List.set_cons_succ, List.take_succ_cons, List.cons_append]
      rw [ih m (by simpa using h)]

theorem drop_set_of_lt_idx (r : List β) (n m : Nat) (v : β) (h : n < m) :
    (r.set n v).drop m = r.drop m := by
  rw [List.drop_set]
  simp [h]

theorem getD_set_self_of_lt (r : List β) (n : Nat) (v d : β) (h : n < r.length) :
    (r.set n v).getD n d = v := by
  simp [List.getD_eq_getElem?_getD, List.getElem?_set_self h]

theorem set_getD_self (r : List β) (n : Nat) (d : β) (h : n < r.length) :
    r.set n (r.getD n d) = r := by
  induction r generalizing n with
  | nil => simp at h
  | cons a as ih =>
    cases n with
    | zero => simp
    | succ m =>
      simp only [List.getD_cons_succ, List.set_cons_succ]
      rw [ih m (by simpa using h)]

theorem rowFold_enumFrom (g : σ → β) (ws : List σ) :
    ∀ (n : Nat) (r : List β), n + ws.length ≤ r.length →
      (ws.enumFrom n).foldl (fun acc jw => acc.set jw.1 (g jw.2)) r
        = r.take n ++ ws.map g ++ r.drop (n + ws.length) := by
  induction ws with
  | nil => intro n r _; simp
  | cons w ws ih =>
    intro n r h
    have hn : n < r.length := by simp at h; omega
    rw [List.enumFrom_cons, List.foldl_cons,
      ih (n + 1) (r.set n (g w)) (by simp at h ⊢; omega),
      take_set_succ r n (g w) hn,
      drop_set_of_lt_idx r n (n + 1 + ws.length) (g w) (by omega)]
    have hidx : n + 1 + ws.length = n + (w :: ws).length := by
      simp
      omega
    rw [hidx]
    simp [List.append_assoc]

theorem innerFold_eq (g : String → Vec) (ws : List String) :
    ∀ (n : Nat) (t : Tensor) (i : Nat), i < t.length →
      (ws.enumFrom n).foldl (fun emb jw => setEntry emb i jw.1 (g jw.2)) t
        = t.set i
            ((ws.enumFrom n).foldl (fun acc jw => acc.set jw.1 (g jw.2)) (t.getD i [])) := by
  induction ws with
  | nil =>
    intro n t i hi
    simp only [List.enumFrom_nil, List.foldl_nil]
    exact (set_getD_self t i [] hi).symm
  | cons w ws ih =>
    intro n t i hi
    simp only [List.enumFrom_cons, List.foldl_cons]
    rw [ih (n + 1) (setEntry t i n (g w)) i (by simp [setEntry, List.length_set]; omega)]
    simp only [setEntry]
    rw [getD_set_self_of_lt t i _ [] hi, List.set_set]

theorem getD_mem (t : List β) (n : Nat) (d : β) (h : n < t.length) : t.getD n d ∈ t := by
  rw [List.getD_eq_getElem?_getD, List.getElem?_eq_getElem h]
  exact List.getElem_mem h

theorem drop_eq_getD_cons (t : List β) (n : Nat) (d : β) (h : n < t.length) :
    t.drop n = t.getD n d :: t.drop (n + 1) := by
  rw [List.drop_eq_getElem_cons h, List.getD_eq_getElem?_getD, List.getElem?_eq_getElem h]
  rfl

theorem length_writeRowFull (g : String → Vec) (ws : List String) (r : Row)
    (h : ws.length ≤ r.length) : (writeRowFull g ws r).length = r.length := by
  simp only [writeRowFull, List.length_append, List.length_map, List.length_drop]
  omega

theorem outerFold_eq (g : String → Vec) (wsOf : String → List String) (m : Nat)
    (docs : List String) :
    ∀ (n : Nat) (t : Tensor),
      n + docs.length ≤ t.length →
      (∀ r ∈ t, r.length = m) →
      (∀ d ∈ docs, (wsOf d).length ≤ m) →
      (docs.enumFrom n).foldl
        (fun embedding idoc =>
          ((wsOf idoc.2).enumFrom 0).foldl
            (fun emb jw => setEntry emb idoc.1 jw.1 (g jw.2)) embedding)
        t
      = t.take n
          ++ List.zipWith (fun d r => writeRowFull g (wsOf d) r) docs (t.drop n)
          ++ t.drop (n + docs.length) := by
  induction docs with
  | nil => intro n t _ _ _; simp
  | cons d ds ih =>
    intro n t h hrows hdocs
    have hn : n < t.length := by simp at h; omega
    have hrowlen : (t.getD n []).length = m := hrows _ (getD_mem t n [] hn)
    have hws : (wsOf d).length ≤ m := hdocs d (List.mem_cons_self d ds)
    simp only [List.enumFrom_cons, List.foldl_cons]
    rw [innerFold_eq g (wsOf d) 0 t n hn,
      rowFold_enumFrom g (wsOf d) 0 (t.getD n []) (by omega)]
    have hrw : (t.getD n []).take 0 ++ (wsOf d).map g ++ (t.getD n []).drop (0 + (wsOf d).length)
        = writeRowFull g (wsOf d) (t.getD n []) := by
      simp [writeRowFull]
    rw [hrw]
    rw [ih (n + 1) (t.set n (writeRowFull g (wsOf d) (t.getD n [])))
      (by simp at h ⊢; omega)
      (by
        intro r hr
        rcases List.mem_or_eq_of_mem_set hr with hr' | hr'
        · exact hrows r hr'
        · rw [hr', length_writeRowFull g (wsOf d) _ (by omega), hrowlen])
      (fun d' hd' => hdocs d' (List.mem_cons_of_mem d hd'))]
    rw [take_set_succ t n _ hn,
      drop_set_of_lt_idx t n (n + 1) _ (by omega),
      drop_set_of_lt_idx t n (n + 1 + ds.length) _ (by omega),
      drop_eq_getD_cons t n [] hn]
    have hidx : n + 1 + ds.length = n + (d :: ds).length := by simp; omega
    rw [hidx]
    simp [List.append_assoc]

theorem zipWith_replicate_right_self (f : σ → β → γ) (b : β) :
    ∀ (l : List σ), List.zipWith f l (List.replicate l.length b) = l.map (fun a => f a b) := by
  intro l
  induction l with
  | nil => rfl
  | cons a l ih => simp [List.replicate_succ, ih]

theorem drop_replicate_eq (a : β) : ∀ (n m : Nat),
    (List.replicate n a).drop m = List.replicate (n - m) a := by
  intro n m
  induction m generalizing n with
  | zero => simp
  | succ k ih =>
    cases n with
    | zero => simp
    | succ n' => simp [List.replicate_succ, ih]

theorem embed_eq_map_rowSpec (nlp : NLP) (tokenize : String → List String) :
    nlp.embed tokenize = nlp.DOCS.map (nlp.rowSpec tokenize) := by
  have h1 : 0 + nlp.DOCS.length ≤ nlp._initialize.length := by simp [NLP._initialize]
  have h2 : ∀ r ∈ nlp._initialize, r.length = nlp.FIXED_DOCSIZE := by
    intro r hr
    simp only [NLP._initialize] at hr
    rw [List.eq_of_mem_replicate hr]
    simp
  have h3 : ∀ d ∈ nlp.DOCS, (nlp.survivors tokenize d).length ≤ nlp.FIXED_DOCSIZE :=
    fun d _ => survivors_length_le nlp tokenize d
  have H := outerFold_eq nlp.WORD_VECS.getVec (nlp.survivors tokenize) nlp.FIXED_DOCSIZE
    nlp.DOCS 0 nlp._initialize h1 h2 h3
  unfold NLP.embed
  rw [show (List.enum (α := String)) = List.enumFrom 0 from rfl]
  rw [H]
  simp only [List.take_zero, List.drop_zero, List.nil_append, Nat.zero_add]
  have hlen : nlp._initialize.length = nlp.DOCS.length := by simp [NLP._initialize]
  have hend : nlp._initialize.drop nlp.DOCS.length = [] := by
    simp only [NLP._initialize, drop_replicate_eq, Nat.sub_self, List.replicate_zero]
  rw [hend, List.append_nil]
  have hinit : nlp._initialize
      = List.replicate nlp.DOCS.length
          (List.replicate nlp.FIXED_DOCSIZE (zeroVec nlp.WORD_VECS.vector_size)) := rfl
  rw [hinit, zipWith_replicate_right_self]
  have hfun : (fun d => writeRowFull nlp.WORD_VECS.getVec (nlp.survivors tokenize d)
      (List.replicate nlp.FIXED_DOCSIZE (zeroVec nlp.WORD_VECS.vector_size)))
      = nlp.rowSpec tokenize := by
    funext d
    simp only [writeRowFull, NLP.rowSpec, drop_replicate_eq]
  rw [hfun]

theorem getD_map_lt (g : σ → β) (l : List σ) (j : Nat) (d : σ) (d' : β) (h : j < l.length) :
    (l.map g).getD j d' = g (l.getD j d) := by
  rw [List.getD_eq_getElem?_getD, List.getElem?_map, List.getElem?_eq_getElem h]
  simp [List.getD_eq_getElem?_getD, List.getElem?_eq_getElem h]

theorem getD_append_lt (l1 l2 : List β) (j : Nat) (d : β) (h : j < l1.length) :
    (l1 ++ l2).getD j d = l1.getD j d := by
  rw [List.getD_eq_getElem?_getD, List.getD_eq_getElem?_getD, List.getElem?_append_left h]

theorem getD_append_ge (l1 l2 : List β) (j : Nat) (d : β) (h : l1.length ≤ j) :
    (l1 ++ l2).getD j d = l2.getD (j - l1.length) d := by
  rw [List.getD_eq_getElem?_getD, List.getD_eq_getElem?_getD, List.getElem?_append_right h]

theorem getD_replicate_lt (a : β) (n j : Nat) (d : β) (h : j < n) :
    (List.replicate n a).getD j d = a := by
  rw [List.getD_eq_getElem?_getD,
    List.getElem?_eq_getElem (by simpa using h : j < (List.replicate n a).length),
    List.getElem_replicate]
  rfl

theorem embed_length (nlp : NLP) (tokenize : String → List String) :
    (nlp.embed tokenize).length = nlp.DOCS.length := by
  rw [embed_eq_map_rowSpec]
  simp

theorem rowSpec_length (nlp : NLP) (tokenize : String → List String) (d : String) :
    (nlp.rowSpec tokenize d).length = nlp.FIXED_DOCSIZE := by
  have h := survivors_length_le nlp tokenize d
  simp only [NLP.rowSpec, List.length_append, List.length_map, List.length_replicate]
  omega

theorem rowAt_embed (nlp : NLP) (tokenize : String → List String) (i : Nat)
    (hi : i < nlp.DOCS.length) :
    rowAt (nlp.embed tokenize) i = nlp.rowSpec tokenize (nlp.DOCS.getD i "") := by
  rw [embed_eq_map_rowSpec, rowAt]
  rw [getD_map_lt (nlp.rowSpec tokenize) nlp.DOCS i "" [] hi]

theorem entryAt_embed_lt (nlp : NLP) (tokenize : String → List String) (i : Nat)
    (hi : i < nlp.DOCS.length) (j : Nat)
    (hj : j < (nlp.survivors tokenize (nlp.DOCS.getD i "")).length) :
    entryAt (nlp.embed tokenize) i j
      = nlp.WORD_VECS.getVec ((nlp.survivors tokenize (nlp.DOCS.getD i "")).getD j "") := by
  have hrow := rowAt_embed nlp tokenize i hi
  rw [show entryAt (nlp.embed tokenize) i j = (rowAt (nlp.embed tokenize) i).getD j [] from rfl,
    hrow]
  simp only [NLP.rowSpec]
  rw [getD_append_lt _ _ j [] (by simpa using hj),
    getD_map_lt nlp.WORD_VECS.getVec _ j "" [] hj]

theorem entryAt_embed_pad (nlp : NLP) (tokenize : String → List String) (i : Nat)
    (hi : i < nlp.DOCS.length) (j : Nat)
    (hj1 : (nlp.survivors tokenize (nlp.DOCS.getD i "")).length ≤ j)
    (hj2 : j < nlp.FIXED_DOCSIZE) :
    entryAt (nlp.embed tokenize) i j = zeroVec nlp.WORD_VECS.vector_size := by
  have hrow := rowAt_embed nlp tokenize i hi
  rw [show entryAt (nlp.embed tokenize) i j = (rowAt (nlp.embed tokenize) i).getD j [] from rfl,
    hrow]
  simp only [NLP.rowSpec]
  rw [getD_append_ge _ _ j [] (by simpa using hj1)]
  exact getD_replicate_lt _ _ _ [] (by simp only [List.length_map]; omega)

theorem pipe_eq_compose : ∀ {α β : Type u} (x : α) (c : FnChain α β), pipe x c = c.compose x
  | _, _, _, .nil => rfl
  | _, _, x, .cons f rest => pipe_eq_compose (f x) rest

theorem except_error_bind {ε σ σ' : Type} (e : ε) (f : σ → Except ε σ') :
    (Except.error e >>= f) = Except.error e := rfl

theorem except_ok_bind {ε σ σ' : Type} (a : σ) (f : σ → Except ε σ') :
    (Except.ok a >>= f) = f a := rfl

theorem embedE_fold_error (nlp : NLP)
    (tokE : String → Except TokenizationError (List String)) (e : TokenizationError) :
    ∀ (docs : List String) (i n : Nat) (t : Tensor),
      i < docs.length →
      tokE (docs.getD i "") = .error e →
      (∀ k, k < i → ∃ ts, tokE (docs.getD k "") = .ok ts) →
      (docs.enumFrom n).foldlM (nlp.embedStep tokE) t = .error e := by
  intro docs
  induction docs with
  | nil => intro i n t hi _ _; simp at hi
  | cons d ds ih =>
    intro i n t hi herr hok
    rw [List.enumFrom_cons, List.foldlM_cons]
    cases i with
    | zero =>
      simp only [List.getD_cons_zero] at herr
      have hstep : nlp.embedStep tokE t (n, d) = .error e := by
        simp only [NLP.embedStep, herr, except_error_bind]
      rw [hstep, except_error_bind]
    | succ i' =>
      obtain ⟨ts, hts⟩ := hok 0 (Nat.succ_pos i')
      simp only [List.getD_cons_zero] at hts
      simp only [List.getD_cons_succ] at herr
      have hstep : nlp.embedStep tokE t (n, d)
          = .ok ((pipe ts
              (.cons (fun l => l.filter (fun token => nlp.WORD_VECS.vocab token))
                (.cons nlp._rm_stopwords (.cons nlp._trunc_doc .nil)))).enum.foldl
              (fun emb jw => setEntry emb n jw.1 (nlp.WORD_VECS.getVec jw.2)) t) := by
        simp only [NLP.embedStep, hts, except_ok_bind]
        rfl
      rw [hstep, except_ok_bind]
      exact ih i' (n + 1) _ (by simpa using hi) herr
        (fun k hk => by simpa using hok (k + 1) (by omega))

/-- C1: for a collection of N stored documents, `embed()` returns a
3-dimensional tensor of shape (N, FIXED_DOCSIZE, vector_dim): the axis-0
length always equals N, FIXED_DOCSIZE is fixed to 200 at construction,
every document slice has exactly FIXED_DOCSIZE word slots, and every
entry has the Vector Lookup's dimensionality. -/
theorem C1_embed_shape (nlp : NLP) (tokenize : String → List String)
    (h : ∀ w, (nlp.WORD_VECS.getVec w).length = nlp.WORD_VECS.vector_size) :
    (nlp.embed tokenize).length = nlp.DOCS.length
      ∧ nlp.FIXED_DOCSIZE = 200
      ∧ (∀ r ∈ nlp.embed tokenize, r.length = nlp.FIXED_DOCSIZE
          ∧ ∀ v ∈ r, v.length = nlp.WORD_VECS.vector_size) := by
  refine ⟨embed_length nlp tokenize, rfl, ?_⟩
  intro r hr
  rw [embed_eq_map_rowSpec] at hr
  rcases List.mem_map.1 hr with ⟨d, _, rfl⟩
  refine ⟨rowSpec_length nlp tokenize d, ?_⟩
  intro v hv
  simp only [NLP.rowSpec] at hv
  rcases List.mem_append.1 hv with hv | hv
  · rcases List.mem_map.1 hv with ⟨w, _, rfl⟩
    exact h w
  · rw [List.eq_of_mem_replicate hv]
    simp [zeroVec]

/-- Witness for C1: the concrete two-document embedder. -/
theorem C1_embed_shape_witness :
    (∀ w, (toyNLP.WORD_VECS.getVec w).length = toyNLP.WORD_VECS.vector_size)
      ∧ ((toyNLP.embed toyTok).length = toyNLP.DOCS.length
          ∧ toyNLP.FIXED_DOCSIZE = 200
          ∧ (∀ r ∈ toyNLP.embed toyTok, r.length = toyNLP.FIXED_DOCSIZE
              ∧ ∀ v ∈ r, v.length = toyNLP.WORD_VECS.vector_size)) :=
  ⟨fun _ => rfl, C1_embed_shape toyNLP toyTok (fun _ => rfl)⟩

/-- C2: per document (in input order), the surviving-token list is the
first FIXED_DOCSIZE tokens of the filtered token sequence in original
order, and the tensor entry `[i, j, :]` for each surviving token at
position `j` is the Vector Lookup's vector for that token. -/
theorem C2_embed_entries (nlp : NLP) (tokenize : String → List String) (i : Nat)
    (hi : i < nlp.DOCS.length) :
    nlp.survivors tokenize (nlp.DOCS.getD i "")
        = (nlp.filteredTokens tokenize (nlp.DOCS.getD i "")).take nlp.FIXED_DOCSIZE
      ∧ ∀ j, j < (nlp.survivors tokenize (nlp.DOCS.getD i "")).length →
          entryAt (nlp.embed tokenize) i j
            = nlp.WORD_VECS.getVec ((nlp.survivors tokenize (nlp.DOCS.getD i "")).getD j "") :=
  ⟨survivors_eq nlp tokenize _, fun j hj => entryAt_embed_lt nlp tokenize i hi j hj⟩

/-- Witness for C2: document 0 of the concrete embedder. -/
theorem C2_embed_entries_witness :
    0 < toyNLP.DOCS.length
      ∧ (toyNLP.survivors toyTok (toyNLP.DOCS.getD 0 "")
            = (toyNLP.filteredTokens toyTok (toyNLP.DOCS.getD 0 "")).take toyNLP.FIXED_DOCSIZE
          ∧ ∀ j, j < (toyNLP.survivors toyTok (toyNLP.DOCS.getD 0 "")).length →
              entryAt (toyNLP.embed toyTok) 0 j
                = toyNLP.WORD_VECS.getVec
                    ((toyNLP.survivors toyTok (toyNLP.DOCS.getD 0 "")).getD j "")) :=
  ⟨by decide, C2_embed_entries toyNLP toyTok 0 (by decide)⟩

/-- C3: a lowercased token of a document survives filtering exactly when
it is in the Vector Lookup's vocabulary and not in the fixed stopword set
{a, and, for, in, of, the, to}; failing tokens are silently dropped (the
filtered sequence is a subsequence of the token sequence — no
substitution, no placeholder). -/
theorem C3_filter_iff (nlp : NLP) (tokenize : String → List String) (doc tok : String)
    (ht : tok ∈ tokenize doc) :
    (tok ∈ nlp._rm_stopwords (nlp._gen_tokens tokenize doc)
        ↔ nlp.WORD_VECS.vocab tok = true ∧ tok ∉ stopwords)
      ∧ (nlp._rm_stopwords (nlp._gen_tokens tokenize doc)).Sublist (tokenize doc) := by
  constructor
  · simp only [NLP._rm_stopwords, NLP._gen_tokens, List.mem_filter]
    constructor
    · rintro ⟨⟨-, h1⟩, h2⟩
      refine ⟨h1, ?_⟩
      simpa using h2
    · rintro ⟨h1, h2⟩
      refine ⟨⟨ht, h1⟩, ?_⟩
      simpa using h2
  · exact (List.filter_sublist _).trans (List.filter_sublist _)

/-- Witness for C3: the token "cat" of the first concrete document. -/
theorem C3_filter_iff_witness :
    "cat" ∈ toyTok "the cat sat the cat"
      ∧ (("cat" ∈ toyNLP._rm_stopwords (toyNLP._gen_tokens toyTok "the cat sat the cat")
            ↔ toyNLP.WORD_VECS.vocab "cat" = true ∧ "cat" ∉ stopwords)
          ∧ (toyNLP._rm_stopwords
              (toyNLP._gen_tokens toyTok "the cat sat the cat")).Sublist
              (toyTok "the cat sat the cat")) :=
  ⟨by decide, C3_filter_iff toyNLP toyTok "the cat sat the cat" "cat" (by decide)⟩

/-- C4: no word vector is written at slot `j ≥ FIXED_DOCSIZE` (each slice
has exactly FIXED_DOCSIZE slots), every slot from the surviving-word count
up to FIXED_DOCSIZE still holds the all-zero initialization vector, and a
document with zero surviving tokens keeps an entirely zero slice. -/
theorem C4_zero_padding (nlp : NLP) (tokenize : String → List String) (i : Nat)
    (hi : i < nlp.DOCS.length) :
    (rowAt (nlp.embed tokenize) i).length = nlp.FIXED_DOCSIZE
      ∧ (∀ j, (nlp.survivors tokenize (nlp.DOCS.getD i "")).length ≤ j →
          j < nlp.FIXED_DOCSIZE →
          entryAt (nlp.embed tokenize) i j = zeroVec nlp.WORD_VECS.vector_size)
      ∧ ((nlp.survivors tokenize (nlp.DOCS.getD i "")).length = 0 →
          rowAt (nlp.embed tokenize) i
            = List.replicate nlp.FIXED_DOCSIZE (zeroVec nlp.WORD_VECS.vector_size)) := by
  refine ⟨?_, fun j hj1 hj2 => entryAt_embed_pad nlp tokenize i hi j hj1 hj2, ?_⟩
  · rw [rowAt_embed nlp tokenize i hi]
    exact rowSpec_length nlp tokenize _
  · intro h0
    rw [rowAt_embed nlp tokenize i hi]
    have hnil : nlp.survivors tokenize (nlp.DOCS.getD i "") = [] := List.length_eq_zero.mp h0
    simp only [NLP.rowSpec, hnil, List.map_nil, List.nil_append, List.length_nil, Nat.sub_zero]

/-- Witness for C4: document 1 of the concrete embedder, all of whose
tokens are out of vocabulary, so its whole slice is zero. -/
theorem C4_zero_padding_witness :
    1 < toyNLP.DOCS.length
      ∧ ((rowAt (toyNLP.embed toyTok) 1).length = toyNLP.FIXED_DOCSIZE
          ∧ (∀ j, (toyNLP.survivors toyTok (toyNLP.DOCS.getD 1 "")).length ≤ j →
              j < toyNLP.FIXED_DOCSIZE →
              entryAt (toyNLP.embed toyTok) 1 j = zeroVec toyNLP.WORD_VECS.vector_size)
          ∧ ((toyNLP.survivors toyTok (toyNLP.DOCS.getD 1 "")).length = 0 →
              rowAt (toyNLP.embed toyTok) 1
                = List.replicate toyNLP.FIXED_DOCSIZE (zeroVec toyNLP.WORD_VECS.vector_size))) :=
  ⟨by decide, C4_zero_padding toyNLP toyTok 1 (by decide)⟩

/-- C5: `embed()` is deterministic — with the Vector Lookup, the stored
documents and the tokenizer fixed, two calls return identical tensors
(the model is a pure function of the instance state, with no randomness). -/
theorem C5_deterministic (nlp : NLP) (tokenize : String → List String) :
    nlp.embed tokenize = nlp.embed tokenize := rfl

/-- C6: an empty document collection is not an error — `embed()` returns
the well-shaped tensor with axis-0 length zero. -/
theorem C6_empty_docs (nlp : NLP) (tokenize : String → List String) (h : nlp.DOCS = []) :
    nlp.embed tokenize = [] ∧ (nlp.embed tokenize).length = 0 := by
  have he := embed_eq_map_rowSpec nlp tokenize
  rw [h, List.map_nil] at he
  exact ⟨he, by rw [he]; rfl⟩

/-- Witness for C6: the concrete embedder with no stored documents. -/
theorem C6_empty_docs_witness :
    toyEmptyNLP.DOCS = []
      ∧ (toyEmptyNLP.embed toyTok = [] ∧ (toyEmptyNLP.embed toyTok).length = 0) :=
  ⟨rfl, C6_empty_docs toyEmptyNLP toyTok rfl⟩

/-- C7: if the Tokenizer fails on some stored document (the earlier ones
tokenizing fine), `embed()` fails with that `TokenizationError`: the error
propagates, the batch is aborted, and no (partial) tensor is returned. -/
theorem C7_tokenization_error (nlp : NLP)
    (tokE : String → Except TokenizationError (List String))
    (i : Nat) (e : TokenizationError)
    (hi : i < nlp.DOCS.length)
    (herr : tokE (nlp.DOCS.getD i "") = .error e)
    (hok : ∀ k, k < i → ∃ ts, tokE (nlp.DOCS.getD k "") = .ok ts) :
    nlp.embedE tokE = .error e := by
  unfold NLP.embedE
  rw [show (List.enum (α := String)) = List.enumFrom 0 from rfl]
  exact embedE_fold_error nlp tokE e nlp.DOCS i 0 nlp._initialize hi herr hok

/-- Witness for C7: the concrete embedder whose second document cannot be
tokenized. -/
theorem C7_tokenization_error_witness :
    (1 < toyNLPE.DOCS.length
      ∧ toyTokE (toyNLPE.DOCS.getD 1 "") = .error { msg := "cannot tokenize" }
      ∧ (∀ k, k < 1 → ∃ ts, toyTokE (toyNLPE.DOCS.getD k "") = .ok ts))
      ∧ toyNLPE.embedE toyTokE = .error { msg := "cannot tokenize" } :=
  ⟨⟨by decide, rfl,
      fun k hk => ⟨["the", "cat", "sat"], by interval_cases k; rfl⟩⟩,
    C7_tokenization_error toyNLPE toyTokE 1 { msg := "cannot tokenize" } (by decide)
      rfl
      (fun k hk => ⟨["the", "cat", "sat"], by interval_cases k; rfl⟩)⟩

/-- C8: each preset (`bbcnews` and `newsgrp`) has exactly the keys
input_length, channels, kernel_size, stride, learn_rate, n_epochs,
hidden_layer_nodes, output_layer_nodes; learn_rate holds a float and
every other key holds an int. -/
theorem C8_config_presets :
    bbcnews.map Prod.fst = hyperKeys
      ∧ newsgrp.map Prod.fst = hyperKeys
      ∧ (∀ kv ∈ bbcnews, (kv.1 = "learn_rate" → kv.2.isFloat = true)
          ∧ (kv.1 ≠ "learn_rate" → kv.2.isInt = true))
      ∧ (∀ kv ∈ newsgrp, (kv.1 = "learn_rate" → kv.2.isFloat = true)
          ∧ (kv.1 ≠ "learn_rate" → kv.2.isInt = true)) := by
  refine ⟨rfl, rfl, ?_, ?_⟩ <;> decide

/-- C9: `pipe(x, f1, ..., fn)` is the left-to-right composition
`fn(...(f2(f1(x))))`; in particular the per-document pipeline of
`embed()` is `_trunc_doc(_rm_stopwords(_gen_tokens(doc)))`. -/
theorem C9_pipe_compose :
    (∀ (α β : Type u) (x : α) (c : FnChain α β), pipe x c = c.compose x)
      ∧ (∀ (nlp : NLP) (tokenize : String → List String) (doc : String),
          nlp.survivors tokenize doc
            = nlp._trunc_doc (nlp._rm_stopwords (nlp._gen_tokens tokenize doc))) :=
  ⟨fun _ _ x c => pipe_eq_compose x c, fun _ _ _ => rfl⟩

/-- C10: repeated surviving occurrences of one token are not
deduplicated — the multiplicity of each token among the survivors equals
its multiplicity in the truncated filtered sequence — and any two
positions holding the same token hold the identical Vector Lookup vector
for it. -/
theorem C10_duplicates (nlp : NLP) (tokenize : String → List String) (i : Nat)
    (hi : i < nlp.DOCS.length) :
    (∀ tok : String,
        (nlp.survivors tokenize (nlp.DOCS.getD i "")).count tok
          = ((nlp.filteredTokens tokenize (nlp.DOCS.getD i "")).take
              nlp.FIXED_DOCSIZE).count tok)
      ∧ (∀ j1 j2 tok,
          j1 < (nlp.survivors tokenize (nlp.DOCS.getD i "")).length →
          j2 < (nlp.survivors tokenize (nlp.DOCS.getD i "")).length →
          (nlp.survivors tokenize (nlp.DOCS.getD i "")).getD j1 "" = tok →
          (nlp.survivors tokenize (nlp.DOCS.getD i "")).getD j2 "" = tok →
          entryAt (nlp.embed tokenize) i j1 = nlp.WORD_VECS.getVec tok
            ∧ entryAt (nlp.embed tokenize) i j2 = nlp.WORD_VECS.getVec tok
            ∧ entryAt (nlp.embed tokenize) i j1 = entryAt (nlp.embed tokenize) i j2) := by
  constructor
  · intro tok
    rw [survivors_eq]
  · intro j1 j2 tok hj1 hj2 htok1 htok2
    have h1 := entryAt_embed_lt nlp tokenize i hi j1 hj1
    have h2 := entryAt_embed_lt nlp tokenize i hi j2 hj2
    rw [htok1] at h1
    rw [htok2] at h2
    exact ⟨h1, h2, by rw [h1, h2]⟩

/-- Witness for C10: document 0 of the concrete embedder, where "cat"
survives at positions 0 and 2. -/
theorem C10_duplicates_witness :
    0 < toyNLP.DOCS.length
      ∧ ((∀ tok : String,
            (toyNLP.survivors toyTok (toyNLP.DOCS.getD 0 "")).count tok
              = ((toyNLP.filteredTokens toyTok (toyNLP.DOCS.getD 0 "")).take
                  toyNLP.FIXED_DOCSIZE).count tok)
          ∧ (∀ j1 j2 tok,
              j1 < (toyNLP.survivors toyTok (toyNLP.DOCS.getD 0 "")).length →
              j2 < (toyNLP.survivors toyTok (toyNLP.DOCS.getD 0 "")).length →
              (toyNLP.survivors toyTok (toyNLP.DOCS.getD 0 "")).getD j1 "" = tok →
              (toyNLP.survivors toyTok (toyNLP.DOCS.getD 0 "")).getD j2 "" = tok →
              entryAt (toyNLP.embed toyTok) 0 j1 = toyNLP.WORD_VECS.getVec tok
                ∧ entryAt (toyNLP.embed toyTok) 0 j2 = toyNLP.WORD_VECS.getVec tok
                ∧ entryAt (toyNLP.embed toyTok) 0 j1 = entryAt (toyNLP.embed toyTok) 0 j2)) :=
  ⟨by decide, C10_duplicates toyNLP toyTok 0 (by decide)⟩

end Inflame
